import Mathlib

/-!
Verification development for the backtesting subsystem of the
binance-trade-bot repository (files `binance_trade_bot/futures_backtest.py`
and `binance_trade_bot/spot_backtest.py`).

Conventions of the shallow embedding:
* timestamps in milliseconds are `Int` (Python ints); `Int` division `/`
  agrees with the Python floor division `//` because every divisor in the
  source is positive;
* Python floats holding prices, quantities and balances are modelled as
  exact rationals `ℚ`;
* the `DataLoader.get_klines` query that the virtual exchanges consult is
  kept abstract as a function field `get_klines`, so every theorem about
  the exchanges quantifies over all possible loader contents;
* a method that mutates `self` is embedded as a function returning the
  result together with the new manager state; a method that only reads
  `self` is embedded as a pure function;
* a Python `raise` escaping a method is an `Except.error`, a `return None`
  is `none`.
-/

set_option linter.unusedVariables false
set_option maxRecDepth 100000

/-- OHLCV bar, from the `Candle` dataclass of `futures_backtest.py`.
The Python field `open` is spelled `open_` because `open` is a Lean
keyword. -/
structure Candle where
  open_time : Int
  open_ : ℚ
  high : ℚ
  low : ℚ
  close : ℚ
  volume : ℚ
  close_time : Int
deriving Repr, DecidableEq, Inhabited

/-- Position side, the `side` literal of the `Position` dataclass. -/
inductive Side where
  | LONG
  | SHORT
deriving Repr, DecidableEq, Inhabited

/-- Trade action, the `action` literal of the `Trade` dataclass. -/
inductive TradeAction where
  | OPEN
  | CLOSE
deriving Repr, DecidableEq, Inhabited

/-- Rendering of a side used to build the position dictionary key
`f"{symbol}_{side}"`. -/
def Side.str : Side → String
  | .LONG => "LONG"
  | .SHORT => "SHORT"

/-- The `Position` dataclass of `futures_backtest.py`. -/
structure Position where
  symbol : String
  side : Side
  quantity : ℚ
  entry_price : ℚ
  entry_time : Int
  total_margin : ℚ
deriving Repr, DecidableEq, Inhabited

/-- `Position.unrealized_pnl` from `futures_backtest.py`. -/
def Position.unrealized_pnl (pos : Position) (current_price : ℚ) : ℚ :=
  match pos.side with
  | .LONG => (current_price - pos.entry_price) * pos.quantity
  | .SHORT => (pos.entry_price - current_price) * pos.quantity

/-- The `Trade` dataclass of `futures_backtest.py`; `pnl` defaults to 0 and
is set only on CLOSE. -/
structure Trade where
  timestamp : Int
  symbol : String
  side : Side
  action : TradeAction
  quantity : ℚ
  price : ℚ
  pnl : ℚ
deriving Repr, DecidableEq, Inhabited

/-- Lookup in a Python dict modelled as an insertion-ordered association
list. -/
def alist_get {α : Type} (l : List (String × α)) (k : String) : Option α :=
  (l.find? (fun p => p.1 == k)).map (fun p => p.2)

/-- Assignment `d[k] = v` on a Python dict modelled as an insertion-ordered
association list: an existing key is updated in place, a new key is
appended. -/
def alist_set {α : Type} (l : List (String × α)) (k : String) (v : α) :
    List (String × α) :=
  if l.any (fun p => p.1 == k) then
    l.map (fun p => if p.1 == k then (k, v) else p)
  else
    l ++ [(k, v)]

/-- Deletion `del d[k]` on a Python dict modelled as an association list. -/
def alist_erase {α : Type} (l : List (String × α)) (k : String) :
    List (String × α) :=
  l.filter (fun p => !(p.1 == k))

/-- `BacktestAPIManager._interval_to_ms` from `futures_backtest.py`
(default 60000 for an unknown interval string). -/
def interval_to_ms (interval : String) : Int :=
  if interval == "1m" then 60 * 1000
  else if interval == "3m" then 3 * 60 * 1000
  else if interval == "5m" then 5 * 60 * 1000
  else if interval == "15m" then 15 * 60 * 1000
  else if interval == "30m" then 30 * 60 * 1000
  else if interval == "1h" then 60 * 60 * 1000
  else if interval == "2h" then 2 * 60 * 60 * 1000
  else if interval == "4h" then 4 * 60 * 60 * 1000
  else if interval == "1d" then 24 * 60 * 60 * 1000
  else 60 * 1000

/-- State of the futures virtual exchange `BacktestAPIManager`.  The field
`get_klines` abstracts the injected `DataLoader.get_klines` month-bucketed
query (symbol, interval, start ms, end ms); every theorem below therefore
holds for every possible loader content. -/
structure BacktestAPIManager where
  get_klines : String → String → Int → Int → List Candle
  current_time : Option Int
  balance : ℚ
  positions : List (String × Position)
  trades : List Trade
  leverage : ℚ

/-- `BacktestAPIManager.futures_klines`: raises (models `RuntimeError`)
when the virtual clock is unset; otherwise anchors the window to the
interval boundary at or before `current_time`, queries the loader, keeps
only bars with `close_time < current_time` and returns the Python slice
`klines[-limit:]` (for `limit = 0` that slice is the whole list). -/
def futures_klines (self : BacktestAPIManager) (symbol interval : String)
    (limit : ℕ) : Except Unit (List Candle) :=
  match self.current_time with
  | none => .error ()
  | some t =>
    let interval_ms := interval_to_ms interval
    let current_interval_start := (t / interval_ms) * interval_ms
    let end_time := current_interval_start
    let start_time := end_time - (limit * interval_ms)
    let klines := self.get_klines symbol interval start_time end_time
    let klines := klines.filter (fun k => k.close_time < t)
    let klines := if limit = 0 then klines
                  else klines.drop (klines.length - limit)
    .ok klines

/-- Method-call view of `futures_klines`: the Python method performs no
assignment to any field of `self`, so the state component of a call is the
input state. -/
def futures_klines_call (self : BacktestAPIManager) (symbol interval : String)
    (limit : ℕ) : Except Unit (List Candle) × BacktestAPIManager :=
  (futures_klines self symbol interval limit, self)

/-- `BacktestAPIManager.get_mark_price`: close of the last 1m bar returned
by `futures_klines` with limit 1; `None` when no bar is available or when
`futures_klines` raises (the Python body catches every exception). -/
def get_mark_price (self : BacktestAPIManager) (symbol : String) : Option ℚ :=
  match futures_klines self symbol "1m" 1 with
  | .error _ => none
  | .ok klines =>
    match klines.getLast? with
    | some k => some k.close
    | none => none

/-- `BacktestAPIManager._execute_trade`: the shared OPEN and CLOSE logic.
Mirrors the Python statement for statement: price truthiness check, margin
check and debit, merge or create on OPEN, clamp, proportional margin
return and PnL credit on CLOSE, deletion of a position whose quantity
reaches zero, and the append-only trade ledger. -/
def execute_trade (self : BacktestAPIManager) (side : Side)
    (action : TradeAction) (symbol : String) (quantity : ℚ) :
    Option Unit × BacktestAPIManager :=
  match get_mark_price self symbol with
  | none => (none, self)
  | some price =>
    if price = 0 then (none, self)
    else
      let position_key := symbol ++ "_" ++ side.str
      match action with
      | .OPEN =>
        let cost := price * quantity / self.leverage
        if cost > self.balance then (none, self)
        else
          let self1 := { self with balance := self.balance - cost }
          let self2 :=
            match alist_get self1.positions position_key with
            | some old_pos =>
              let total_quantity := old_pos.quantity + quantity
              let avg_price := (old_pos.entry_price * old_pos.quantity +
                price * quantity) / total_quantity
              let new_pos := { old_pos with
                quantity := total_quantity,
                entry_price := avg_price,
                total_margin := old_pos.total_margin + cost }
              { self1 with
                positions := alist_set self1.positions position_key new_pos }
            | none =>
              let new_pos : Position :=
                { symbol := symbol, side := side, quantity := quantity,
                  entry_price := price,
                  entry_time := self.current_time.getD 0,
                  total_margin := cost }
              { self1 with
                positions := alist_set self1.positions position_key new_pos }
          let self3 := { self2 with trades := self2.trades ++
            [{ timestamp := self.current_time.getD 0, symbol := symbol,
               side := side, action := .OPEN, quantity := quantity,
               price := price, pnl := 0 }] }
          (some (), self3)
      | .CLOSE =>
        match alist_get self.positions position_key with
        | none => (none, self)
        | some pos =>
          let quantity := if quantity > pos.quantity then pos.quantity
                          else quantity
          let pnl := pos.unrealized_pnl price * (quantity / pos.quantity)
          let returned_margin := pos.total_margin * (quantity / pos.quantity)
          let self1 := { self with
            balance := self.balance + (returned_margin + pnl) }
          let new_pos := { pos with
            quantity := pos.quantity - quantity,
            total_margin := pos.total_margin - returned_margin }
          let self2 :=
            if new_pos.quantity ≤ (0 : ℚ) then
              { self1 with
                positions := alist_erase self1.positions position_key }
            else
              { self1 with
                positions := alist_set self1.positions position_key new_pos }
          let self3 := { self2 with trades := self2.trades ++
            [{ timestamp := self.current_time.getD 0, symbol := symbol,
               side := side, action := .CLOSE, quantity := quantity,
               price := price, pnl := pnl }] }
          (some (), self3)

/-- `BacktestAPIManager.open_long`. -/
def open_long (self : BacktestAPIManager) (symbol : String) (quantity : ℚ) :
    Option Unit × BacktestAPIManager :=
  execute_trade self .LONG .OPEN symbol quantity

/-- `BacktestAPIManager.open_short`. -/
def open_short (self : BacktestAPIManager) (symbol : String) (quantity : ℚ) :
    Option Unit × BacktestAPIManager :=
  execute_trade self .SHORT .OPEN symbol quantity

/-- `BacktestAPIManager.close_long`. -/
def close_long (self : BacktestAPIManager) (symbol : String) (quantity : ℚ) :
    Option Unit × BacktestAPIManager :=
  execute_trade self .LONG .CLOSE symbol quantity

/-- `BacktestAPIManager.close_short`. -/
def close_short (self : BacktestAPIManager) (symbol : String) (quantity : ℚ) :
    Option Unit × BacktestAPIManager :=
  execute_trade self .SHORT .CLOSE symbol quantity

/-- One equity-curve record appended by `BacktestEngine.run` (the Python
dict with keys timestamp, equity, balance, positions). -/
structure EquityPoint where
  timestamp : Int
  equity : ℚ
  balance : ℚ
  positions : ℕ
deriving Repr, DecidableEq, Inhabited

/-- The equity computation of the recording step of `BacktestEngine.run`:
start from the balance and, for each open position, add its unrealized
PnL when `get_mark_price` yields a truthy value (`if current_price:` in
Python is false for both `None` and `0.0`). -/
def total_equity (self : BacktestAPIManager) : ℚ :=
  self.positions.foldl
    (fun total p =>
      match get_mark_price self p.2.symbol with
      | some current_price =>
        if current_price = 0 then total
        else total + p.2.unrealized_pnl current_price
      | none => total)
    self.balance

/-- Contribution of a single open position to the recorded equity: its
unrealized PnL at the mark price when that price is obtainable and
nonzero, and 0 otherwise. -/
def marked_pnl (self : BacktestAPIManager) (p : String × Position) : ℚ :=
  match get_mark_price self p.2.symbol with
  | some current_price =>
    if current_price = 0 then 0 else p.2.unrealized_pnl current_price
  | none => 0

/-- Sum of the marked unrealized PnL over the open positions. -/
def sum_marked_pnl (self : BacktestAPIManager) : ℚ :=
  (self.positions.map (marked_pnl self)).sum

/-- Data carried by the `RuntimeError` that aborts a replay run whose
failure count crosses the ceiling: the cumulative failure count and the
number of ticks processed when the abort fired (the Python message embeds
both together with their ratio). -/
structure AbortInfo where
  error_count : ℕ
  ticks_processed : ℕ
deriving Repr, DecidableEq, Inhabited

/-- Result of a completed futures replay run: the final exchange state,
the equity curve and the number of failed ticks. -/
structure RunResult where
  api : BacktestAPIManager
  equity_curve : List EquityPoint
  error_count : ℕ

/-- The main loop of `BacktestEngine.run` (step 5 of the Python method).
The strategy `scout` call is abstracted as a function returning the
possibly mutated exchange state together with a flag that is `false` when
the call raised.  Per timestamp: set the virtual clock, call `scout`; on
failure increment the error count, abort when it exceeds `max_errors`,
otherwise skip the rest of the iteration (`continue`); on success append
one equity point.  The arguments thread the enumeration index `i`, the
running error count and the equity curve accumulated so far. -/
def run_loop (scout : BacktestAPIManager → Bool × BacktestAPIManager)
    (max_errors : ℕ) :
    List Int → ℕ → ℕ → BacktestAPIManager → List EquityPoint →
    Except AbortInfo RunResult
  | [], _, error_count, api, curve =>
    .ok { api := api, equity_curve := curve, error_count := error_count }
  | ts :: rest, i, error_count, api, curve =>
    let api0 := { api with current_time := some ts }
    match scout api0 with
    | (false, api1) =>
      let error_count := error_count + 1
      if error_count > max_errors then
        .error { error_count := error_count, ticks_processed := i + 1 }
      else
        run_loop scout max_errors rest (i + 1) error_count api1 curve
    | (true, api1) =>
      let point : EquityPoint :=
        { timestamp := ts, equity := total_equity api1,
          balance := api1.balance, positions := api1.positions.length }
      run_loop scout max_errors rest (i + 1) error_count api1 (curve ++ [point])

/-- The while loop of `_generate_timestamps`, with an explicit fuel bound
on the number of iterations: append `current` while `current <= end` and
advance by the stride. -/
def gen_aux : ℕ → Int → Int → Int → List Int
  | 0, _, _, _ => []
  | fuel + 1, current, end_ms, step =>
    if current ≤ end_ms then current :: gen_aux fuel (current + step) end_ms step
    else []

/-- `BacktestEngine._generate_timestamps` over epoch milliseconds: the
date parsing is left to the caller; the fuel `(end - start).toNat + 1`
is enough for every positive stride. -/
def generate_timestamps (start_ms end_ms step_ms : Int) : List Int :=
  gen_aux ((end_ms - start_ms).toNat + 1) start_ms end_ms step_ms

/-- `BacktestEngine._interval_to_ms` (the engine copy: fewer keys and a
default of one hour). -/
def engine_interval_to_ms (interval : String) : Int :=
  if interval == "1m" then 60 * 1000
  else if interval == "5m" then 5 * 60 * 1000
  else if interval == "15m" then 15 * 60 * 1000
  else if interval == "1h" then 60 * 60 * 1000
  else if interval == "4h" then 4 * 60 * 60 * 1000
  else if interval == "1d" then 24 * 60 * 60 * 1000
  else 60 * 60 * 1000

/-- Errors surfacing from `BacktestEngine.run`: the `ValueError` on an
empty timestamp sequence and the `RuntimeError` of a breached failure
ceiling. -/
inductive RunError where
  | invalid_config
  | aborted (info : AbortInfo)
deriving Repr, DecidableEq, Inhabited

/-- `BacktestEngine.run` around the main loop: generate the timestamp
sequence, reject an empty one as a configuration error (`ValueError`),
set the ceiling `max(10, len(timestamps) // 10)`, warm up by setting the
clock to the first timestamp (the warm-up bar queries are read-only), and
run the loop from index 0, error count 0 and an empty equity curve.  The
construction of the manager and strategy from the run parameters is left
to the caller. -/
def engine_run (scout : BacktestAPIManager → Bool × BacktestAPIManager)
    (api : BacktestAPIManager) (start_ms end_ms : Int) (interval : String) :
    Except RunError RunResult :=
  let timestamps := generate_timestamps start_ms end_ms
    (engine_interval_to_ms interval)
  if timestamps.length = 0 then .error .invalid_config
  else
    let max_errors := max 10 (timestamps.length / 10)
    let api := { api with current_time := some (timestamps.headD 0) }
    match run_loop scout max_errors timestamps 0 0 api [] with
    | .error info => .error (.aborted info)
    | .ok r => .ok r

/-- Outcome of one paginated request to `binance_client.futures_klines`
inside `DataLoader._download_from_binance`: either a `BinanceAPIException`
or a page of raw bars.  The network is modelled as the list of successive
outcomes the client would produce. -/
abbrev PageOutcome := Except Unit (List Candle)

/-- The pagination loop of `DataLoader._download_from_binance`: while
`current_start < end_ms`, take the next client outcome; an API exception
breaks the loop, an empty page breaks the loop, a nonempty page is
appended and `current_start` advances to one past the close time of its
last bar.  In every case whatever was accumulated so far is returned. -/
def download_aux (end_ms : Int) :
    List PageOutcome → Int → List Candle → List Candle
  | [], _, acc => acc
  | outcome :: rest, current_start, acc =>
    if current_start < end_ms then
      match outcome with
      | .error _ => acc
      | .ok [] => acc
      | .ok (c :: cs) =>
        download_aux end_ms rest (((c :: cs).getLastD c).close_time + 1)
          (acc ++ (c :: cs))
    else acc

/-- `DataLoader._download_from_binance`. -/
def download_from_binance (responses : List PageOutcome)
    (start_ms end_ms : Int) : List Candle :=
  download_aux end_ms responses start_ms []

/-- Cache state of the futures `DataLoader`: the in-memory dict, the
on-disk pickle files and, when a client was injected, the stream of
outcomes its paginated requests would produce. -/
structure DataLoaderState where
  memory_cache : List (String × List Candle)
  disk_cache : List (String × List Candle)
  client : Option (List PageOutcome)

/-- `DataLoader._get_month_klines` for one month bucket.  The cache key
string and the start and end milliseconds of the month are taken as
arguments (in the source they are derived from the year and month by
calendar arithmetic).  Tier order is memory, then disk (loading a disk
hit into memory), then network; a network download is written to disk and
memory exactly as returned, and without a client the bucket resolves to
the empty list and nothing is cached. -/
def get_month_klines (st : DataLoaderState) (cache_key : String)
    (month_start_ms month_end_ms : Int) : List Candle × DataLoaderState :=
  match alist_get st.memory_cache cache_key with
  | some klines => (klines, st)
  | none =>
    match alist_get st.disk_cache cache_key with
    | some klines =>
      (klines, { st with
        memory_cache := alist_set st.memory_cache cache_key klines })
    | none =>
      match st.client with
      | some responses =>
        let klines := download_from_binance responses month_start_ms
          month_end_ms
        (klines, { st with
          disk_cache := alist_set st.disk_cache cache_key klines,
          memory_cache := alist_set st.memory_cache cache_key klines })
      | none => ([], st)

/-- State of the spot virtual exchange `SpotBacktestAPIManager`.  As for
the futures manager, the bar query the code performs against its injected
data loader is abstracted as the function field `get_klines`. -/
structure SpotBacktestAPIManager where
  get_klines : String → String → Int → Int → List Candle
  current_time : Option Int
  balances : List (String × ℚ)
  bridge_symbol : String
  fee_rate : ℚ

/-- `SpotBacktestAPIManager.get_currency_balance`:
`balances.get(symbol, 0.0)`. -/
def get_currency_balance (self : SpotBacktestAPIManager)
    (currency_symbol : String) : ℚ :=
  (alist_get self.balances currency_symbol).getD 0

/-- `SpotBacktestAPIManager.get_historical_klines`: raises when the
virtual clock is unset; otherwise queries the loader with the end bound
capped at `current_time`, keeps only bars with
`close_time < current_time` and returns the slice `klines[-limit:]`
(the whole list when `limit = 0`).  The branch parsing date strings is
not modelled; start and end arrive as millisecond integers. -/
def get_historical_klines (self : SpotBacktestAPIManager)
    (symbol interval : String) (start_ms end_ms : Int) (limit : ℕ) :
    Except Unit (List Candle) :=
  match self.current_time with
  | none => .error ()
  | some t =>
    let klines := self.get_klines symbol interval start_ms (min end_ms t)
    let klines := klines.filter (fun k => k.close_time < t)
    let klines := if limit = 0 then klines
                  else klines.drop (klines.length - limit)
    .ok klines

/-- Method-call view of `get_historical_klines`: the method performs no
assignment to any field of `self`, so the state component of a call is
the input state. -/
def get_historical_klines_call (self : SpotBacktestAPIManager)
    (symbol interval : String) (start_ms end_ms : Int) (limit : ℕ) :
    Except Unit (List Candle) × SpotBacktestAPIManager :=
  (get_historical_klines self symbol interval start_ms end_ms limit, self)

/-- `SpotBacktestAPIManager.get_ticker_price`: close of the last bar of
the 5m window ending at the interval boundary at or before the clock,
provided that bar is already complete; `None` otherwise or when anything
raises (an unset clock makes the Python body raise a `TypeError`, which
the `except` clause turns into `None`). -/
def get_ticker_price (self : SpotBacktestAPIManager)
    (ticker_symbol : String) : Option ℚ :=
  match self.current_time with
  | none => none
  | some t =>
    let interval_ms : Int := 5 * 60 * 1000
    let current_interval_start := (t / interval_ms) * interval_ms
    let end_time := current_interval_start
    let klines := self.get_klines ticker_symbol "5m" (end_time - interval_ms)
      end_time
    match klines.getLast? with
    | some k => if k.close_time < t then some k.close else none
    | none => none

/-- `SpotBacktestAPIManager.buy_alt`: a full-balance swap of the target
(quote) balance into the origin coin at the ticker price, minus the fee.
Returns the execution price on success and `none` (with the state
untouched) when no price is obtainable or the source balance is not
positive. -/
def buy_alt (self : SpotBacktestAPIManager) (origin_symbol target_symbol :
    String) : Option ℚ × SpotBacktestAPIManager :=
  let ticker_symbol := origin_symbol ++ target_symbol
  match get_ticker_price self ticker_symbol with
  | none => (none, self)
  | some price =>
    let target_balance := get_currency_balance self target_symbol
    if target_balance ≤ 0 then (none, self)
    else
      let fee := self.fee_rate
      let origin_quantity := (target_balance / price) * (1 - fee)
      let balances1 := alist_set self.balances target_symbol 0
      let balances2 := alist_set balances1 origin_symbol
        ((alist_get balances1 origin_symbol).getD 0 + origin_quantity)
      (some price, { self with balances := balances2 })

/-- `SpotBacktestAPIManager.sell_alt`: the symmetric full-balance swap of
the origin balance back into the target coin at the ticker price, minus
the fee. -/
def sell_alt (self : SpotBacktestAPIManager) (origin_symbol target_symbol :
    String) : Option ℚ × SpotBacktestAPIManager :=
  let ticker_symbol := origin_symbol ++ target_symbol
  match get_ticker_price self ticker_symbol with
  | none => (none, self)
  | some price =>
    let origin_balance := get_currency_balance self origin_symbol
    if origin_balance ≤ 0 then (none, self)
    else
      let fee := self.fee_rate
      let target_quantity := (origin_balance * price) * (1 - fee)
      let balances1 := alist_set self.balances origin_symbol 0
      let balances2 := alist_set balances1 target_symbol
        ((alist_get balances1 target_symbol).getD 0 + target_quantity)
      (some price, { self with balances := balances2 })

/-- `SpotBacktestEngine._calculate_total_value`: balances folded into a
bridge-currency valuation, skipping zero balances and positions whose
ticker price is unavailable or falsy. -/
def calculate_total_value (self : SpotBacktestAPIManager) : ℚ :=
  self.balances.foldl
    (fun total p =>
      if p.2 = (0 : ℚ) then total
      else if p.1 == self.bridge_symbol then total + p.2
      else
        match get_ticker_price self (p.1 ++ self.bridge_symbol) with
        | some price => if price = 0 then total else total + p.2 * price
        | none => total)
    (0 : ℚ)

/-- One record of the spot balance history (the Python dict with keys
timestamp, total_value, balances). -/
structure SpotPoint where
  timestamp : Int
  total_value : ℚ
  balances : List (String × ℚ)
deriving Repr, DecidableEq, Inhabited

/-- Result of a completed spot replay run. -/
structure SpotRunResult where
  api : SpotBacktestAPIManager
  balance_history : List SpotPoint
  error_count : ℕ

/-- The main loop of `SpotBacktestEngine.run` (step 6 of the Python
method); identical failure handling to the futures loop, recording one
balance-history point per successful tick. -/
def spot_run_loop
    (scout : SpotBacktestAPIManager → Bool × SpotBacktestAPIManager)
    (max_errors : ℕ) :
    List Int → ℕ → ℕ → SpotBacktestAPIManager → List SpotPoint →
    Except AbortInfo SpotRunResult
  | [], _, error_count, api, history =>
    .ok { api := api, balance_history := history, error_count := error_count }
  | ts :: rest, i, error_count, api, history =>
    let api0 := { api with current_time := some ts }
    match scout api0 with
    | (false, api1) =>
      let error_count := error_count + 1
      if error_count > max_errors then
        .error { error_count := error_count, ticks_processed := i + 1 }
      else
        spot_run_loop scout max_errors rest (i + 1) error_count api1 history
    | (true, api1) =>
      let point : SpotPoint :=
        { timestamp := ts, total_value := calculate_total_value api1,
          balances := api1.balances }
      spot_run_loop scout max_errors rest (i + 1) error_count api1
        (history ++ [point])

/-- The stride table of `SpotBacktestEngine._generate_timestamps`
(timedeltas, default one hour), in milliseconds. -/
def spot_interval_to_ms (interval : String) : Int :=
  if interval == "1m" then 60 * 1000
  else if interval == "5m" then 5 * 60 * 1000
  else if interval == "15m" then 15 * 60 * 1000
  else if interval == "1h" then 60 * 60 * 1000
  else if interval == "4h" then 4 * 60 * 60 * 1000
  else if interval == "1d" then 24 * 60 * 60 * 1000
  else 60 * 60 * 1000

/-- `SpotBacktestEngine.run` around the main loop, mirroring
`engine_run`: generate timestamps, reject an empty sequence as a
`ValueError`, fix the ceiling `max(10, len(timestamps) // 10)`, set the
initial clock (step 4 of the Python method) and run the loop. -/
def spot_engine_run
    (scout : SpotBacktestAPIManager → Bool × SpotBacktestAPIManager)
    (api : SpotBacktestAPIManager) (start_ms end_ms : Int)
    (interval : String) : Except RunError SpotRunResult :=
  let timestamps := generate_timestamps start_ms end_ms
    (spot_interval_to_ms interval)
  if timestamps.length = 0 then .error .invalid_config
  else
    let max_errors := max 10 (timestamps.length / 10)
    let api := { api with current_time := some (timestamps.headD 0) }
    match spot_run_loop scout max_errors timestamps 0 0 api [] with
    | .error info => .error (.aborted info)
    | .ok r => .ok r

/-- Projection used to read the failure count out of a finished or
aborted replay run. -/
def run_error_count : Except AbortInfo RunResult → ℕ
  | .ok r => r.error_count
  | .error info => info.error_count

/-- A loader query backed by a fixed bar list, filtering exactly as
`DataLoader.get_klines` filters the collected month buckets by
`start_ms <= open_time <= end_ms`. -/
def loader_of (bars : List Candle) :
    String → String → Int → Int → List Candle :=
  fun _ _ start_ms end_ms =>
    bars.filter (fun k => decide (start_ms ≤ k.open_time) &&
      decide (k.open_time ≤ end_ms))

/-- A completed 1m bar with close 100 covering 60000..119999 ms. -/
def candle_100 : Candle :=
  { open_time := 60000, open_ := 100, high := 110, low := 90, close := 100,
    volume := 1, close_time := 119999 }

/-- A completed 1m bar with close 110 covering 120000..179999 ms. -/
def candle_110 : Candle :=
  { open_time := 120000, open_ := 100, high := 115, low := 95, close := 110,
    volume := 1, close_time := 179999 }

/-- Fresh account of Scenario A: balance 1000, leverage 2, clock at
120000 ms, mark price 100. -/
def mgr_open : BacktestAPIManager :=
  { get_klines := loader_of [candle_100], current_time := some 120000,
    balance := 1000, positions := [], trades := [], leverage := 2 }

/-- The LONG position of Scenario A after the open: 1 unit at entry 100
with 50 margin. -/
def pos_long : Position :=
  { symbol := "BTCUSDT", side := .LONG, quantity := 1, entry_price := 100,
    entry_time := 120000, total_margin := 50 }

/-- Account of Scenario A after the open, with the mark price risen to
110: balance 950 and the open LONG position. -/
def mgr_close : BacktestAPIManager :=
  { get_klines := loader_of [candle_100, candle_110],
    current_time := some 180000, balance := 950,
    positions := [("BTCUSDT_LONG", pos_long)], trades := [], leverage := 2 }

/-- A bar sitting exactly on the queried interval boundary whose close
time is still in the past of the virtual clock 90000 ms; it survives the
completed-bar filter of `futures_klines`. -/
def candle_short : Candle :=
  { open_time := 60000, open_ := 1, high := 1, low := 1, close := 1,
    volume := 1, close_time := 70000 }

/-- Exchange state exhibiting the `limit = 0` slice behaviour of
`futures_klines`. -/
def mgr_limit0 : BacktestAPIManager :=
  { get_klines := loader_of [candle_short], current_time := some 90000,
    balance := 0, positions := [], trades := [], leverage := 1 }

/-- Minimal exchange state with an empty data set and no open positions,
used to drive concrete replay runs. -/
def mgr_plain : BacktestAPIManager :=
  { get_klines := fun _ _ _ _ => [], current_time := none, balance := 1000,
    positions := [], trades := [], leverage := 3 }

/-- A strategy callback that always raises. -/
def scout_fail : BacktestAPIManager → Bool × BacktestAPIManager :=
  fun api => (false, api)

/-- A strategy callback that never raises and never trades. -/
def scout_ok : BacktestAPIManager → Bool × BacktestAPIManager :=
  fun api => (true, api)

/-- A strategy callback raising exactly at the virtual times 0..14 ms. -/
def scout_fail15 : BacktestAPIManager → Bool × BacktestAPIManager :=
  fun api =>
    (match api.current_time with
     | some t => decide (15 ≤ t)
     | none => false, api)

/-- The timestamps 0..99 ms. -/
def ticks_100 : List Int := (List.range 100).map (fun i => (i : Int))

/-- The timestamps 0..149 ms. -/
def ticks_150 : List Int := (List.range 150).map (fun i => (i : Int))

/-- Result of replaying one tick whose strategy callback raises: the
error is counted and no equity point is recorded. -/
def one_fail_result : RunResult :=
  { api := { mgr_plain with current_time := some 0 }, equity_curve := [],
    error_count := 1 }

/-- Result of replaying one tick whose strategy callback succeeds without
trading: exactly one equity point at the full balance. -/
def one_ok_result : RunResult :=
  { api := { mgr_plain with current_time := some 0 },
    equity_curve :=
      [({ timestamp := 0, equity := 1000, balance := 1000, positions := 0 } :
        EquityPoint)],
    error_count := 0 }

/-- Loader cache state with empty cache tiers and a client whose first
paginated request raises a `BinanceAPIException`. -/
def loader_err_first : DataLoaderState :=
  { memory_cache := [], disk_cache := [], client := some [.error ()] }

/-- Loader cache state with empty cache tiers and a client that delivers
one page and then raises, leaving the month bucket incomplete. -/
def loader_err_second : DataLoaderState :=
  { memory_cache := [], disk_cache := [],
    client := some [.ok [candle_100], .error ()] }

/-- A completed 5m bar with close 100 covering 300000..599999 ms. -/
def candle_5m : Candle :=
  { open_time := 300000, open_ := 100, high := 110, low := 90, close := 100,
    volume := 1, close_time := 599999 }

/-- Spot account holding 1000 USDT with the standard fee rate, clock at
600001 ms, ticker price 100. -/
def spot_mgr : SpotBacktestAPIManager :=
  { get_klines := loader_of [candle_5m], current_time := some 600001,
    balances := [("USDT", 1000)], bridge_symbol := "USDT",
    fee_rate := 3 / 4000 }

/-- The per-unit directional PnL at an execution price, as the close
contract states it: `exec_price - entry_price` for LONG and
`entry_price - exec_price` for SHORT. -/
def per_unit_pnl (side : Side) (entry_price exec_price : ℚ) : ℚ :=
  match side with
  | .LONG => exec_price - entry_price
  | .SHORT => entry_price - exec_price

/-!
Helper lemmas about dict operations, the equity fold, the timestamp
generator and the replay loops.
-/

lemma find?_map_update {α : Type} (k : String) (v : α) :
    ∀ (l : List (String × α)), l.any (fun p => p.1 == k) = true →
      (l.map (fun p => if p.1 == k then (k, v) else p)).find?
        (fun p => p.1 == k) = some (k, v)
  | [], h => by simp at h
  | a :: t, h => by
    rw [List.map_cons]
    by_cases ha : (a.1 == k) = true
    · rw [if_pos ha, List.find?_cons_of_pos _ (by simp)]
    · have ht : t.any (fun p => p.1 == k) = true := by
        simpa [List.any_cons, ha] using h
      rw [if_neg ha, List.find?_cons_of_neg _ (by simpa using ha)]
      exact find?_map_update k v t ht

lemma alist_get_set_self {α : Type} (l : List (String × α)) (k : String)
    (v : α) : alist_get (alist_set l k v) k = some v := by
  unfold alist_set
  by_cases h : l.any (fun p => p.1 == k)
  · rw [if_pos h]
    unfold alist_get
    rw [find?_map_update k v l h]
    rfl
  · have hnone : l.find? (fun p => p.1 == k) = none := by
      rw [List.find?_eq_none]
      intro x hx hpx
      exact absurd (List.any_eq_true.mpr ⟨x, hx, hpx⟩) h
    rw [if_neg h]
    unfold alist_get
    rw [List.find?_append, hnone]
    simp [List.find?]

lemma find?_map_update_ne {α : Type} (k k' : String) (v : α) (hne : k' ≠ k) :
    ∀ (l : List (String × α)),
      (l.map (fun p => if p.1 == k then (k, v) else p)).find?
        (fun p => p.1 == k') = l.find? (fun p => p.1 == k')
  | [] => by simp
  | a :: t => by
    have hkk' : (k == k') = false := beq_eq_false_iff_ne.mpr (Ne.symm hne)
    rw [List.map_cons]
    by_cases ha : (a.1 == k) = true
    · have ha1 : a.1 = k := by simpa using ha
      have hak' : (a.1 == k') = false := by rw [ha1]; exact hkk'
      rw [if_pos ha, List.find?_cons_of_neg _ (by simp [hkk']),
        List.find?_cons_of_neg _ (by simp [hak'])]
      exact find?_map_update_ne k k' v hne t
    · rw [if_neg ha]
      by_cases hp : (a.1 == k') = true
      · rw [List.find?_cons_of_pos (p := fun q : String × _ => q.1 == k') _ hp,
          List.find?_cons_of_pos (p := fun q : String × _ => q.1 == k') _ hp]
      · rw [List.find?_cons_of_neg (p := fun q : String × _ => q.1 == k') _ hp,
          List.find?_cons_of_neg (p := fun q : String × _ => q.1 == k') _ hp]
        exact find?_map_update_ne k k' v hne t

lemma alist_get_set_ne {α : Type} (l : List (String × α)) (k k' : String)
    (v : α) (hne : k' ≠ k) :
    alist_get (alist_set l k v) k' = alist_get l k' := by
  unfold alist_set
  by_cases h : l.any (fun p => p.1 == k)
  · rw [if_pos h]
    unfold alist_get
    rw [find?_map_update_ne k k' v hne l]
  · have hlast : List.find? (fun p => p.1 == k') [(k, v)] = none := by
      simp [List.find?, beq_eq_false_iff_ne.mpr (Ne.symm hne)]
    rw [if_neg h]
    unfold alist_get
    rw [List.find?_append, hlast]
    simp

lemma alist_get_erase_self {α : Type} (l : List (String × α)) (k : String) :
    alist_get (alist_erase l k) k = none := by
  have hnone : (l.filter (fun p => !(p.1 == k))).find?
      (fun p => p.1 == k) = none := by
    rw [List.find?_eq_none]
    intro x hx
    have hfilt := (List.mem_filter.mp hx).2
    simp only [Bool.not_eq_true'] at hfilt
    simp [hfilt]
  simp [alist_get, alist_erase, hnone]

lemma alist_set_mem {α : Type} {l : List (String × α)} {k : String} {v : α}
    {x : String × α} (hx : x ∈ alist_set l k v) : x = (k, v) ∨ x ∈ l := by
  unfold alist_set at hx
  by_cases h : l.any (fun p => p.1 == k)
  · rw [if_pos h] at hx
    rcases List.mem_map.mp hx with ⟨y, hy, hxy⟩
    by_cases hyk : (y.1 == k) = true
    · left
      rw [← hxy, if_pos hyk]
    · right
      rw [← hxy, if_neg hyk]
      exact hy
  · rw [if_neg h] at hx
    rcases List.mem_append.mp hx with h1 | h1
    · right; exact h1
    · left; simpa using h1

lemma alist_erase_subset {α : Type} {l : List (String × α)} {k : String}
    {x : String × α} (hx : x ∈ alist_erase l k) : x ∈ l :=
  (List.mem_filter.mp hx).1

lemma alist_get_mem {α : Type} {l : List (String × α)} {k : String} {v : α}
    (h : alist_get l k = some v) : (k, v) ∈ l := by
  unfold alist_get at h
  obtain ⟨p, hp, hpv⟩ := Option.map_eq_some'.mp h
  have hmem := List.mem_of_find?_eq_some hp
  have hpred := List.find?_some hp
  have hp1 : p.1 = k := by simpa using hpred
  have hpe : p = (k, v) := by
    cases p
    simp_all
  rwa [hpe] at hmem

lemma foldl_add_of_body {α : Type} (g : ℚ → α → ℚ) (f : α → ℚ)
    (hg : ∀ acc x, g acc x = acc + f x) :
    ∀ (l : List α) (acc : ℚ), l.foldl g acc = acc + (l.map f).sum
  | [], acc => by simp
  | x :: t, acc => by
    rw [List.foldl_cons, hg, foldl_add_of_body g f hg t, List.map_cons,
      List.sum_cons]
    ring

lemma total_equity_eq (self : BacktestAPIManager) :
    total_equity self = self.balance + sum_marked_pnl self := by
  unfold total_equity sum_marked_pnl
  refine foldl_add_of_body _ (marked_pnl self) ?_ self.positions self.balance
  intro acc x
  unfold marked_pnl
  cases h : get_mark_price self x.2.symbol with
  | none => simp
  | some cp => by_cases hcp : cp = 0 <;> simp [hcp]

lemma gen_aux_of_not_le (fuel : ℕ) (c e step : Int) (h : ¬ c ≤ e) :
    gen_aux fuel c e step = [] := by
  cases fuel <;> simp [gen_aux, h]

lemma gen_aux_closed :
    ∀ (fuel : ℕ) (c e step : Int), 0 < step → (e - c).toNat < fuel →
      gen_aux fuel c e step =
        (List.range (if c ≤ e then (e - c).toNat / step.toNat + 1 else 0)).map
          (fun i : ℕ => c + step * (i : ℤ))
  | 0, c, e, step, hs, hf => by omega
  | fuel + 1, c, e, step, hs, hf => by
    by_cases hce : c ≤ e
    · rw [if_pos hce]
      show (if c ≤ e then c :: gen_aux fuel (c + step) e step else []) = _
      rw [if_pos hce]
      by_cases h2 : c + step ≤ e
      · have hf2 : (e - (c + step)).toNat < fuel := by omega
        rw [gen_aux_closed fuel (c + step) e step hs hf2, if_pos h2]
        have hn : (e - c).toNat / step.toNat + 1
            = ((e - (c + step)).toNat / step.toNat + 1) + 1 := by
          have he : (e - c).toNat = (e - (c + step)).toNat + step.toNat := by
            omega
          rw [he, Nat.add_div_right _ (by omega)]
        rw [hn]
        conv_rhs => rw [List.range_succ_eq_map]
        rw [List.map_cons, List.map_map]
        congr 1
        · simp
        · refine List.map_congr_left ?_
          intro i _
          simp only [Function.comp_apply]
          push_cast
          ring
      · rw [gen_aux_of_not_le _ _ _ _ h2]
        have hdiv : (e - c).toNat / step.toNat = 0 := Nat.div_eq_of_lt (by omega)
        rw [hdiv]
        simp [List.range_succ]
    · rw [if_neg hce, gen_aux_of_not_le _ _ _ _ hce]
      simp

lemma generate_timestamps_closed (s e step : Int) (hs : 0 < step)
    (hse : s ≤ e) :
    generate_timestamps s e step =
      (List.range ((e - s).toNat / step.toNat + 1)).map
        (fun i : ℕ => s + step * (i : ℤ)) := by
  unfold generate_timestamps
  rw [gen_aux_closed _ _ _ _ hs (by omega), if_pos hse]

lemma generate_timestamps_length (s e step : Int) (hs : 0 < step)
    (hse : s ≤ e) :
    (generate_timestamps s e step).length = (e - s).toNat / step.toNat + 1 := by
  rw [generate_timestamps_closed s e step hs hse]
  simp

lemma generate_timestamps_head (s e step : Int) (hs : 0 < step)
    (hse : s ≤ e) : (generate_timestamps s e step).head? = some s := by
  rw [generate_timestamps_closed s e step hs hse, List.range_succ_eq_map]
  simp

lemma generate_timestamps_mem (s e step : Int) (hs : 0 < step) (hse : s ≤ e)
    (x : Int) (hx : x ∈ generate_timestamps s e step) : s ≤ x ∧ x ≤ e := by
  rw [generate_timestamps_closed s e step hs hse] at hx
  obtain ⟨i, hi, rfl⟩ := List.mem_map.mp hx
  have hiR := List.mem_range.mp hi
  constructor
  · have h0 : (0 : ℤ) ≤ step * (i : ℤ) := mul_nonneg hs.le (by positivity)
    linarith
  · have hin : i ≤ (e - s).toNat / step.toNat := by omega
    have h1 : step.toNat * i ≤ (e - s).toNat := by
      calc step.toNat * i
          ≤ step.toNat * ((e - s).toNat / step.toNat) :=
            Nat.mul_le_mul_left _ hin
        _ ≤ (e - s).toNat := by
            rw [mul_comm]
            exact Nat.div_mul_le_self _ _
    have h2 : ((step.toNat : ℤ)) * (i : ℤ) ≤ (((e - s).toNat : ℤ)) := by
      exact_mod_cast h1
    rw [Int.toNat_of_nonneg hs.le, Int.toNat_of_nonneg (by omega : (0:ℤ) ≤ e - s)]
      at h2
    linarith

lemma generate_timestamps_stride (s e step : Int) (hs : 0 < step)
    (hse : s ≤ e) (i : ℕ) (x y : Int)
    (hx : (generate_timestamps s e step)[i]? = some x)
    (hy : (generate_timestamps s e step)[i + 1]? = some y) :
    y = x + step := by
  rw [generate_timestamps_closed s e step hs hse, List.getElem?_map] at hx hy
  have hlt : i + 1 < (e - s).toNat / step.toNat + 1 := by
    by_contra hcon
    rw [List.getElem?_eq_none (by simpa using Nat.le_of_not_lt hcon)] at hy
    simp at hy
  rw [List.getElem?_range hlt] at hy
  rw [List.getElem?_range (by omega)] at hx
  simp only [Option.map_some'] at hx hy
  have hx1 : s + step * (i : ℤ) = x := by injection hx
  have hy1 : s + step * ((i + 1 : ℕ) : ℤ) = y := by injection hy
  push_cast at hy1
  rw [← hx1, ← hy1]
  ring

lemma run_loop_ok_error_le
    (scout : BacktestAPIManager → Bool × BacktestAPIManager)
    (max_errors : ℕ) :
    ∀ (ts : List Int) (i error_count : ℕ) (api : BacktestAPIManager)
      (curve : List EquityPoint) (r : RunResult),
      error_count ≤ max_errors →
      run_loop scout max_errors ts i error_count api curve = .ok r →
      r.error_count ≤ max_errors
  | [], i, ec, api, curve, r, hle, h => by
    simp only [run_loop] at h
    cases h
    exact hle
  | ts :: rest, i, ec, api, curve, r, hle, h => by
    rw [run_loop] at h
    cases hs : scout { api with current_time := some ts } with
    | mk ok api1 =>
      rw [hs] at h
      cases ok with
      | false =>
        simp only at h
        by_cases hgt : ec + 1 > max_errors
        · rw [if_pos hgt] at h
          cases h
        · rw [if_neg hgt] at h
          exact run_loop_ok_error_le scout max_errors rest (i + 1) (ec + 1)
            api1 curve r (by omega) h
      | true =>
        simp only at h
        exact run_loop_ok_error_le scout max_errors rest (i + 1) ec api1 _ r
          hle h

lemma run_loop_error_ceiling
    (scout : BacktestAPIManager → Bool × BacktestAPIManager)
    (max_errors : ℕ) :
    ∀ (ts : List Int) (i error_count : ℕ) (api : BacktestAPIManager)
      (curve : List EquityPoint) (info : AbortInfo),
      error_count ≤ max_errors → error_count ≤ i →
      run_loop scout max_errors ts i error_count api curve = .error info →
      info.error_count = max_errors + 1 ∧
        info.error_count ≤ info.ticks_processed
  | [], i, ec, api, curve, info, hle, hei, h => by
    simp only [run_loop] at h
    cases h
  | ts :: rest, i, ec, api, curve, info, hle, hei, h => by
    rw [run_loop] at h
    cases hs : scout { api with current_time := some ts } with
    | mk ok api1 =>
      rw [hs] at h
      cases ok with
      | false =>
        simp only at h
        by_cases hgt : ec + 1 > max_errors
        · rw [if_pos hgt] at h
          cases h
          constructor
          · simp only
            omega
          · simp only
            omega
        · rw [if_neg hgt] at h
          exact run_loop_error_ceiling scout max_errors rest (i + 1) (ec + 1)
            api1 curve info (by omega) (by omega) h
      | true =>
        simp only at h
        exact run_loop_error_ceiling scout max_errors rest (i + 1) ec api1 _
          info hle (by omega) h

lemma run_loop_ok_curve_length
    (scout : BacktestAPIManager → Bool × BacktestAPIManager)
    (max_errors : ℕ) :
    ∀ (ts : List Int) (i error_count : ℕ) (api : BacktestAPIManager)
      (curve : List EquityPoint) (r : RunResult),
      run_loop scout max_errors ts i error_count api curve = .ok r →
      r.equity_curve.length + r.error_count =
        curve.length + error_count + ts.length
  | [], i, ec, api, curve, r, h => by
    simp only [run_loop] at h
    cases h
    simp
  | ts :: rest, i, ec, api, curve, r, h => by
    rw [run_loop] at h
    cases hs : scout { api with current_time := some ts } with
    | mk ok api1 =>
      rw [hs] at h
      cases ok with
      | false =>
        simp only at h
        by_cases hgt : ec + 1 > max_errors
        · rw [if_pos hgt] at h
          cases h
        · rw [if_neg hgt] at h
          have := run_loop_ok_curve_length scout max_errors rest (i + 1)
            (ec + 1) api1 curve r h
          simp only [List.length_cons]
          omega
      | true =>
        simp only at h
        have := run_loop_ok_curve_length scout max_errors rest (i + 1) ec api1
          _ r h
        simp only [List.length_append, List.length_cons, List.length_nil]
          at this ⊢
        omega

lemma spot_run_loop_ok_error_le
    (scout : SpotBacktestAPIManager → Bool × SpotBacktestAPIManager)
    (max_errors : ℕ) :
    ∀ (ts : List Int) (i error_count : ℕ) (api : SpotBacktestAPIManager)
      (history : List SpotPoint) (r : SpotRunResult),
      error_count ≤ max_errors →
      spot_run_loop scout max_errors ts i error_count api history = .ok r →
      r.error_count ≤ max_errors
  | [], i, ec, api, history, r, hle, h => by
    simp only [spot_run_loop] at h
    cases h
    exact hle
  | ts :: rest, i, ec, api, history, r, hle, h => by
    rw [spot_run_loop] at h
    cases hs : scout { api with current_time := some ts } with
    | mk ok api1 =>
      rw [hs] at h
      cases ok with
      | false =>
        simp only at h
        by_cases hgt : ec + 1 > max_errors
        · rw [if_pos hgt] at h
          cases h
        · rw [if_neg hgt] at h
          exact spot_run_loop_ok_error_le scout max_errors rest (i + 1)
            (ec + 1) api1 history r (by omega) h
      | true =>
        simp only at h
        exact spot_run_loop_ok_error_le scout max_errors rest (i + 1) ec api1
          _ r hle h

lemma spot_run_loop_error_ceiling
    (scout : SpotBacktestAPIManager → Bool × SpotBacktestAPIManager)
    (max_errors : ℕ) :
    ∀ (ts : List Int) (i error_count : ℕ) (api : SpotBacktestAPIManager)
      (history : List SpotPoint) (info : AbortInfo),
      error_count ≤ max_errors → error_count ≤ i →
      spot_run_loop scout max_errors ts i error_count api history =
        .error info →
      info.error_count = max_errors + 1 ∧
        info.error_count ≤ info.ticks_processed
  | [], i, ec, api, history, info, hle, hei, h => by
    simp only [spot_run_loop] at h
    cases h
  | ts :: rest, i, ec, api, history, info, hle, hei, h => by
    rw [spot_run_loop] at h
    cases hs : scout { api with current_time := some ts } with
    | mk ok api1 =>
      rw [hs] at h
      cases ok with
      | false =>
        simp only at h
        by_cases hgt : ec + 1 > max_errors
        · rw [if_pos hgt] at h
          cases h
          constructor
          · simp only
            omega
          · simp only
            omega
        · rw [if_neg hgt] at h
          exact spot_run_loop_error_ceiling scout max_errors rest (i + 1)
            (ec + 1) api1 history info (by omega) (by omega) h
      | true =>
        simp only at h
        exact spot_run_loop_error_ceiling scout max_errors rest (i + 1) ec
          api1 _ info hle (by omega) h

/-!
Claim theorems.
-/

/-- C1 (amended): for every virtual time `T`, every loader content, every
symbol and interval, every bar returned by `futures_klines` (futures
simulator) or `get_historical_klines` (spot simulator) has
`close_time < T`; and whenever `limit >= 1` the result holds at most
`limit` bars.  (For `limit = 0` the Python slice `klines[-limit:]` is the
whole filtered list, so the at-most-limit bound fails there; see the
counterexample.) -/
theorem c1_no_lookahead_amended :
    (∀ (self : BacktestAPIManager) (symbol interval : String) (limit : ℕ)
        (T : Int) (ks : List Candle),
        self.current_time = some T →
        futures_klines self symbol interval limit = .ok ks →
        (∀ k ∈ ks, k.close_time < T) ∧ (1 ≤ limit → ks.length ≤ limit)) ∧
    (∀ (self : SpotBacktestAPIManager) (symbol interval : String)
        (start_ms end_ms : Int) (limit : ℕ) (T : Int) (ks : List Candle),
        self.current_time = some T →
        get_historical_klines self symbol interval start_ms end_ms limit =
          .ok ks →
        (∀ k ∈ ks, k.close_time < T) ∧ (1 ≤ limit → ks.length ≤ limit)) := by
  constructor
  · intro self symbol interval limit T ks hT h
    unfold futures_klines at h
    rw [hT] at h
    simp only [Except.ok.injEq] at h
    by_cases h0 : limit = 0
    · rw [if_pos h0] at h
      subst h
      constructor
      · intro k hk
        have := (List.mem_filter.mp hk).2
        exact of_decide_eq_true this
      · intro h1
        omega
    · rw [if_neg h0] at h
      subst h
      constructor
      · intro k hk
        have hk2 := List.mem_of_mem_drop hk
        have := (List.mem_filter.mp hk2).2
        exact of_decide_eq_true this
      · intro h1
        rw [List.length_drop]
        omega
  · intro self symbol interval start_ms end_ms limit T ks hT h
    unfold get_historical_klines at h
    rw [hT] at h
    simp only [Except.ok.injEq] at h
    by_cases h0 : limit = 0
    · rw [if_pos h0] at h
      subst h
      constructor
      · intro k hk
        have := (List.mem_filter.mp hk).2
        exact of_decide_eq_true this
      · intro h1
        omega
    · rw [if_neg h0] at h
      subst h
      constructor
      · intro k hk
        have hk2 := List.mem_of_mem_drop hk
        have := (List.mem_filter.mp hk2).2
        exact of_decide_eq_true this
      · intro h1
        rw [List.length_drop]
        omega

/-- C1 witness: at the concrete Scenario A state, `futures_klines` with
limit 2 returns the two completed bars and the theorem yields the
no-lookahead bound for the first of them. -/
theorem c1_no_lookahead_amended_witness : candle_100.close_time < 180000 :=
  ((c1_no_lookahead_amended.1 mgr_close "BTCUSDT" "1m" 2 180000
    [candle_100, candle_110] rfl rfl).1 candle_100 (by decide))

/-- C1 counterexample: with the clock at 90000 ms and a cached bar of the
queried window whose close time is already past, `futures_klines` called
with `limit = 0` returns one bar, so the claimed bound "the result
contains at most `limit` bars" is false at `limit = 0` (the Python slice
`klines[-0:]` is the whole list). -/
theorem c1_limit_zero_counterexample :
    futures_klines mgr_limit0 "BTCUSDT" "1m" 0 = .ok [candle_short] ∧
      ¬ (futures_klines mgr_limit0 "BTCUSDT" "1m" 0 = .ok []) := by
  constructor
  · rfl
  · intro h
    simp only [futures_klines] at h
    cases h

/-- C10: for every bar query made while the virtual clock is unset
(`current_time = None`), both simulators raise a `RuntimeError` instead
of returning data, and the call leaves the whole exchange state (hence
balances, positions and the trade ledger) unchanged. -/
theorem c10_unset_clock_raises :
    (∀ (self : BacktestAPIManager) (symbol interval : String) (limit : ℕ),
        self.current_time = none →
        futures_klines_call self symbol interval limit = (.error (), self)) ∧
    (∀ (self : SpotBacktestAPIManager) (symbol interval : String)
        (start_ms end_ms : Int) (limit : ℕ),
        self.current_time = none →
        get_historical_klines_call self symbol interval start_ms end_ms
          limit = (.error (), self)) := by
  constructor
  · intro self symbol interval limit h
    unfold futures_klines_call futures_klines
    rw [h]
  · intro self symbol interval start_ms end_ms limit h
    unfold get_historical_klines_call get_historical_klines
    rw [h]

/-- C10 witness: the fresh manager with an unset clock raises on a bar
query and is returned unchanged. -/
theorem c10_unset_clock_raises_witness :
    futures_klines_call mgr_plain "BTCUSDT" "1m" 100 =
      (.error (), mgr_plain) :=
  c10_unset_clock_raises.1 mgr_plain "BTCUSDT" "1m" 100 rfl

/-- C8: for every range with `start <= end` and positive stride, the
generated timestamp sequence starts at `start`, stays within
`[start, end]`, advances by exactly `step` between consecutive elements
(hence is strictly increasing), and has exactly
`(end - start) / step + 1` elements; Scenario B (one hour in 15-minute
steps) yields exactly the five expected stamps; and an empty generated
sequence makes both engines fail with the configuration error
(`ValueError`) instead of being silently tolerated. -/
theorem c8_generate_timestamps (s e step : Int) (hs : 0 < step)
    (hse : s ≤ e) :
    (generate_timestamps s e step).length =
      (e - s).toNat / step.toNat + 1 ∧
    (generate_timestamps s e step).head? = some s ∧
    (∀ x ∈ generate_timestamps s e step, s ≤ x ∧ x ≤ e) ∧
    (∀ (i : ℕ) (x y : Int), (generate_timestamps s e step)[i]? = some x →
        (generate_timestamps s e step)[i + 1]? = some y → y = x + step) ∧
    generate_timestamps 0 3600000 900000 =
      [0, 900000, 1800000, 2700000, 3600000] ∧
    (∀ (scout : BacktestAPIManager → Bool × BacktestAPIManager)
        (api : BacktestAPIManager) (s' e' : Int) (interval : String),
        generate_timestamps s' e' (engine_interval_to_ms interval) = [] →
        engine_run scout api s' e' interval = .error .invalid_config) ∧
    (∀ (scout : SpotBacktestAPIManager → Bool × SpotBacktestAPIManager)
        (api : SpotBacktestAPIManager) (s' e' : Int) (interval : String),
        generate_timestamps s' e' (spot_interval_to_ms interval) = [] →
        spot_engine_run scout api s' e' interval = .error .invalid_config) := by
  refine ⟨generate_timestamps_length s e step hs hse,
    generate_timestamps_head s e step hs hse,
    generate_timestamps_mem s e step hs hse,
    (fun i x y hx hy =>
      generate_timestamps_stride s e step hs hse i x y hx hy),
    by rfl, ?_, ?_⟩
  · intro scout api s' e' interval h
    simp [engine_run, h]
  · intro scout api s' e' interval h
    simp [spot_engine_run, h]

/-- C8 witness: the Scenario B range instantiates the count law. -/
theorem c8_generate_timestamps_witness :
    (generate_timestamps 0 3600000 900000).length =
      ((3600000 : ℤ) - 0).toNat / ((900000 : ℤ)).toNat + 1 :=
  (c8_generate_timestamps 0 3600000 900000 (by decide) (by decide)).1

/-- C6 (amended): a month bucket that misses both cache tiers is
persisted to disk and memory exactly as `_download_from_binance` returned
it and returned to the caller, even when the download stopped early: an
API error or an empty page before the bucket end boundary simply ends
the pagination loop, the partial (possibly empty) data is cached and
silently returned, there are no retries, and no bucket is ever reported
unavailable. -/
theorem c6_partial_bucket_cached_amended
    (st : DataLoaderState) (cache_key : String)
    (month_start_ms month_end_ms : Int) (responses : List PageOutcome)
    (hm : alist_get st.memory_cache cache_key = none)
    (hd : alist_get st.disk_cache cache_key = none)
    (hc : st.client = some responses) :
    get_month_klines st cache_key month_start_ms month_end_ms =
      (download_from_binance responses month_start_ms month_end_ms,
        { st with
          disk_cache := alist_set st.disk_cache cache_key
            (download_from_binance responses month_start_ms month_end_ms),
          memory_cache := alist_set st.memory_cache cache_key
            (download_from_binance responses month_start_ms month_end_ms) }) ∧
    alist_get (get_month_klines st cache_key month_start_ms
        month_end_ms).2.disk_cache cache_key =
      some (download_from_binance responses month_start_ms month_end_ms) ∧
    (∀ (rest : List PageOutcome) (ms me : Int), ms < me →
        download_from_binance (.error () :: rest) ms me = []) ∧
    (∀ (rest : List PageOutcome) (ms me : Int), ms < me →
        download_from_binance (.ok [] :: rest) ms me = []) := by
  have hmain : get_month_klines st cache_key month_start_ms month_end_ms =
      (download_from_binance responses month_start_ms month_end_ms,
        { st with
          disk_cache := alist_set st.disk_cache cache_key
            (download_from_binance responses month_start_ms month_end_ms),
          memory_cache := alist_set st.memory_cache cache_key
            (download_from_binance responses month_start_ms month_end_ms) }) := by
    unfold get_month_klines
    rw [hm, hd, hc]
  refine ⟨hmain, ?_, ?_, ?_⟩
  · rw [hmain]
    exact alist_get_set_self _ _ _
  · intro rest ms me h
    simp [download_from_binance, download_aux, h]
  · intro rest ms me h
    simp [download_from_binance, download_aux, h]

/-- C6 witness: a client that delivers one page of the bucket and then
raises leaves the month bucket incomplete, yet the partial bucket is
persisted to the disk cache. -/
theorem c6_partial_bucket_cached_amended_witness :
    alist_get (get_month_klines loader_err_second "BTCUSDT_1m_2024-01" 0
      200000).2.disk_cache "BTCUSDT_1m_2024-01" = some [candle_100] :=
  (c6_partial_bucket_cached_amended loader_err_second "BTCUSDT_1m_2024-01" 0
    200000 [.ok [candle_100], .error ()] rfl rfl rfl).2.1

/-- C6 counterexample: a download whose very first paginated request
raises a `BinanceAPIException` is cached anyway: the empty partial bucket
is persisted to disk as the content of the month and silently returned,
refuting the claim that a bucket failing partway is never persisted and
is reported unavailable after retries. -/
theorem c6_partial_bucket_counterexample :
    (get_month_klines loader_err_first "BTCUSDT_1m_2024-01" 0 1000).1 = [] ∧
    alist_get (get_month_klines loader_err_first "BTCUSDT_1m_2024-01" 0
      1000).2.disk_cache "BTCUSDT_1m_2024-01" = some [] := by
  constructor <;> rfl

/-- C5: with an obtainable nonzero execution price `p`, an open against
the futures simulator requires margin `p * quantity / leverage`; it
returns null with no state mutation exactly when that margin exceeds the
available balance, and otherwise debits exactly the margin from the
balance, creates the position or merges it into the existing
same-direction position by quantity-weighted average entry price with
additively accumulated margin, and appends an OPEN trade. -/
theorem c5_open_margin_contract (self : BacktestAPIManager) (side : Side)
    (symbol : String) (q p : ℚ)
    (hp : get_mark_price self symbol = some p) (hp0 : p ≠ 0) :
    ((execute_trade self side .OPEN symbol q).1 = none ↔
      p * q / self.leverage > self.balance) ∧
    (p * q / self.leverage > self.balance →
      execute_trade self side .OPEN symbol q = (none, self)) ∧
    (¬ p * q / self.leverage > self.balance →
      (execute_trade self side .OPEN symbol q).1 = some () ∧
      (execute_trade self side .OPEN symbol q).2.balance =
        self.balance - p * q / self.leverage ∧
      (execute_trade self side .OPEN symbol q).2.trades =
        self.trades ++
          [{ timestamp := self.current_time.getD 0, symbol := symbol,
             side := side, action := .OPEN, quantity := q, price := p,
             pnl := 0 }] ∧
      (alist_get self.positions (symbol ++ "_" ++ side.str) = none →
        alist_get (execute_trade self side .OPEN symbol q).2.positions
          (symbol ++ "_" ++ side.str) =
          some { symbol := symbol, side := side, quantity := q,
                 entry_price := p, entry_time := self.current_time.getD 0,
                 total_margin := p * q / self.leverage }) ∧
      (∀ old_pos,
        alist_get self.positions (symbol ++ "_" ++ side.str) =
          some old_pos →
        alist_get (execute_trade self side .OPEN symbol q).2.positions
          (symbol ++ "_" ++ side.str) =
          some { old_pos with
            quantity := old_pos.quantity + q,
            entry_price :=
              (old_pos.entry_price * old_pos.quantity + p * q) /
                (old_pos.quantity + q),
            total_margin :=
              old_pos.total_margin + p * q / self.leverage })) := by
  refine ⟨?_, ?_, ?_⟩
  · by_cases hcost : p * q / self.leverage > self.balance
    · simp only [execute_trade, hp, if_neg hp0, if_pos hcost]
      simpa using hcost
    · simp only [execute_trade, hp, if_neg hp0, if_neg hcost]
      cases hold : alist_get self.positions (symbol ++ "_" ++ side.str) with
      | none => simpa [hold] using hcost
      | some old_pos => simpa [hold] using hcost
  · intro hcost
    simp only [execute_trade, hp, if_neg hp0, if_pos hcost]
  · intro hcost
    cases hold : alist_get self.positions (symbol ++ "_" ++ side.str) with
    | none =>
      simp only [execute_trade, hp, if_neg hp0, if_neg hcost, hold]
      refine ⟨trivial, trivial, trivial, fun _ => ?_,
        fun old_pos hold2 => ?_⟩
      · exact alist_get_set_self _ _ _
      · cases hold2
    | some old_pos =>
      simp only [execute_trade, hp, if_neg hp0, if_neg hcost, hold]
      refine ⟨trivial, trivial, trivial, fun hnone => ?_,
        fun old_pos2 hold2 => ?_⟩
      · cases hnone
      · cases hold2
        exact alist_get_set_self _ _ _

/-- C5 witness: Scenario A open — balance 1000, leverage 2, open LONG 1
unit at price 100 debits margin 50, leaving balance 950. -/
theorem c5_open_margin_contract_witness :
    (execute_trade mgr_open .LONG .OPEN "BTCUSDT" 1).2.balance = 950 := by
  have h := ((c5_open_margin_contract mgr_open .LONG "BTCUSDT" 1 100 rfl
    (by norm_num)).2.2 (by norm_num [mgr_open])).2.1
  norm_num [mgr_open] at h
  exact h

/-- C4: closing `q` units of an existing position holding `Q >= q` units
at an obtainable nonzero execution price credits the balance with exactly
the proportionally returned margin plus the realized PnL (the per-unit
directional PnL times the closed quantity), shrinks the position quantity
and margin by exactly the closed fraction, deletes the position once its
quantity reaches zero, and appends a CLOSE trade carrying the realized
PnL. -/
theorem c4_close_conservation (self : BacktestAPIManager) (side : Side)
    (symbol : String) (q p : ℚ) (pos : Position)
    (hp : get_mark_price self symbol = some p) (hp0 : p ≠ 0)
    (hpos : alist_get self.positions (symbol ++ "_" ++ side.str) = some pos)
    (hq0 : 0 < q) (hqle : q ≤ pos.quantity) (hposq : 0 < pos.quantity) :
    (execute_trade self side .CLOSE symbol q).1 = some () ∧
    (execute_trade self side .CLOSE symbol q).2.balance =
      self.balance + pos.total_margin * (q / pos.quantity) +
        per_unit_pnl pos.side pos.entry_price p * q ∧
    (q < pos.quantity →
      alist_get (execute_trade self side .CLOSE symbol q).2.positions
        (symbol ++ "_" ++ side.str) =
        some { pos with
          quantity := pos.quantity - q,
          total_margin := pos.total_margin -
            pos.total_margin * (q / pos.quantity) }) ∧
    (q = pos.quantity →
      alist_get (execute_trade self side .CLOSE symbol q).2.positions
        (symbol ++ "_" ++ side.str) = none) ∧
    (execute_trade self side .CLOSE symbol q).2.trades =
      self.trades ++
        [{ timestamp := self.current_time.getD 0, symbol := symbol,
           side := side, action := .CLOSE, quantity := q, price := p,
           pnl := per_unit_pnl pos.side pos.entry_price p * q }] := by
  have hqne : pos.quantity ≠ 0 := ne_of_gt hposq
  have hpnl : pos.unrealized_pnl p * (q / pos.quantity) =
      per_unit_pnl pos.side pos.entry_price p * q := by
    unfold Position.unrealized_pnl per_unit_pnl
    cases pos.side
    · field_simp
      ring
    · field_simp
      ring
  have hclamp : ¬ q > pos.quantity := not_lt.mpr hqle
  simp only [execute_trade, hp, if_neg hp0, hpos, if_neg hclamp]
  refine ⟨trivial, ?_, ?_, ?_, ?_⟩
  · simp only [apply_ite BacktestAPIManager.balance, ite_self]
    rw [hpnl]
    ring
  · intro hlt
    rw [if_neg (not_le.mpr (by linarith : (0:ℚ) < pos.quantity - q))]
    exact alist_get_set_self _ _ _
  · intro heq
    rw [if_pos (by rw [heq]; simp : pos.quantity - q ≤ 0)]
    exact alist_get_erase_self _ _
  · rw [hpnl]
    simp only [apply_ite BacktestAPIManager.trades, ite_self]

/-- C4 witness: Scenario A close — with the mark at 110, closing the full
LONG unit returns the 50 margin plus 10 realized PnL, so the balance goes
from 950 to 1010. -/
theorem c4_close_conservation_witness :
    (execute_trade mgr_close .LONG .CLOSE "BTCUSDT" 1).2.balance = 1010 := by
  have h := (c4_close_conservation mgr_close .LONG "BTCUSDT" 1 110 pos_long
    rfl (by norm_num) rfl (by norm_num) (by norm_num [pos_long])
    (by norm_num [pos_long])).2.1
  norm_num [mgr_close, pos_long, per_unit_pnl] at h
  exact h

/-- C7: a close whose requested quantity exceeds the held quantity clamps
to the held quantity and succeeds (the clamped CLOSE trade is recorded,
the fully closed position is deleted, nothing raises); and for every
trade operation with positive quantity, every position remaining in the
positions map afterwards has strictly positive quantity — no close ever
drives a quantity negative. -/
theorem c7_close_clamping :
    (∀ (self : BacktestAPIManager) (side : Side) (symbol : String)
        (q p : ℚ) (pos : Position),
        get_mark_price self symbol = some p → p ≠ 0 →
        alist_get self.positions (symbol ++ "_" ++ side.str) = some pos →
        q > pos.quantity → 0 < pos.quantity →
        (execute_trade self side .CLOSE symbol q).1 = some () ∧
        (execute_trade self side .CLOSE symbol q).2.trades =
          self.trades ++
            [{ timestamp := self.current_time.getD 0, symbol := symbol,
               side := side, action := .CLOSE, quantity := pos.quantity,
               price := p, pnl := pos.unrealized_pnl p }] ∧
        alist_get (execute_trade self side .CLOSE symbol q).2.positions
          (symbol ++ "_" ++ side.str) = none) ∧
    (∀ (self : BacktestAPIManager) (side : Side) (action : TradeAction)
        (symbol : String) (q : ℚ),
        (∀ kv ∈ self.positions, 0 < kv.2.quantity) → 0 < q →
        ∀ kv ∈ (execute_trade self side action symbol q).2.positions,
          0 < kv.2.quantity) := by
  constructor
  · intro self side symbol q p pos hp hp0 hpos hgt hposq
    simp only [execute_trade, hp, if_neg hp0, hpos, if_pos hgt]
    refine ⟨trivial, ?_, ?_⟩
    · simp only [apply_ite BacktestAPIManager.trades, ite_self]
      rw [div_self (ne_of_gt hposq), mul_one]
    · rw [if_pos (show pos.quantity - pos.quantity ≤ (0:ℚ) by simp)]
      exact alist_get_erase_self _ _
  · intro self side action symbol q hinv hq kv hkv
    cases hmp : get_mark_price self symbol with
    | none =>
      simp only [execute_trade, hmp] at hkv
      exact hinv kv hkv
    | some p =>
      by_cases hp0 : p = 0
      · simp only [execute_trade, hmp, if_pos hp0] at hkv
        exact hinv kv hkv
      · cases action with
        | OPEN =>
          by_cases hcost : p * q / self.leverage > self.balance
          · simp only [execute_trade, hmp, if_neg hp0, if_pos hcost] at hkv
            exact hinv kv hkv
          · cases hold : alist_get self.positions
                (symbol ++ "_" ++ side.str) with
            | some old_pos =>
              simp only [execute_trade, hmp, if_neg hp0, if_neg hcost, hold]
                at hkv
              rcases alist_set_mem hkv with h1 | h1
              · rw [h1]
                have h2 := hinv _ (alist_get_mem hold)
                simp only at h2 ⊢
                linarith
              · exact hinv kv h1
            | none =>
              simp only [execute_trade, hmp, if_neg hp0, if_neg hcost, hold]
                at hkv
              rcases alist_set_mem hkv with h1 | h1
              · rw [h1]
                simpa using hq
              · exact hinv kv h1
        | CLOSE =>
          cases hold : alist_get self.positions
              (symbol ++ "_" ++ side.str) with
          | none =>
            simp only [execute_trade, hmp, if_neg hp0, hold] at hkv
            exact hinv kv hkv
          | some pos =>
            by_cases hcl : q > pos.quantity
            · simp only [execute_trade, hmp, if_neg hp0, hold, if_pos hcl,
                apply_ite BacktestAPIManager.positions] at hkv
              rw [if_pos (show pos.quantity - pos.quantity ≤ (0:ℚ) by simp)]
                at hkv
              exact hinv kv (alist_erase_subset hkv)
            · simp only [execute_trade, hmp, if_neg hp0, hold, if_neg hcl,
                apply_ite BacktestAPIManager.positions] at hkv
              by_cases hz : pos.quantity - q ≤ (0:ℚ)
              · rw [if_pos hz] at hkv
                exact hinv kv (alist_erase_subset hkv)
              · rw [if_neg hz] at hkv
                rcases alist_set_mem hkv with h1 | h1
                · rw [h1]
                  simp only
                  linarith [not_le.mp hz]
                · exact hinv kv h1

/-- C7 witness: at the Scenario A state, requesting to close 2 units of
the 1-unit LONG position clamps to 1 unit, succeeds and deletes the
position. -/
theorem c7_close_clamping_witness :
    (execute_trade mgr_close .LONG .CLOSE "BTCUSDT" 2).1 = some () ∧
    alist_get (execute_trade mgr_close .LONG .CLOSE "BTCUSDT" 2).2.positions
      ("BTCUSDT" ++ "_" ++ Side.LONG.str) = none := by
  have h := c7_close_clamping.1 mgr_close .LONG "BTCUSDT" 2 110 pos_long rfl
    (by norm_num) rfl (by norm_num [pos_long]) (by norm_num [pos_long])
  exact ⟨h.1, h.2.2⟩

/-- C9: a successful spot `buy_alt` empties the target (quote) balance
into the origin coin, crediting exactly `(B / p) * (1 - fee)`, and a
successful `sell_alt` empties the origin balance into the target coin,
crediting exactly `(B * p) * (1 - fee)`; there is no partial-balance
swap, and a call that cannot obtain a price or finds a non-positive
source balance returns null with the whole state unchanged. -/
theorem c9_spot_full_balance_swap :
    (∀ (self : SpotBacktestAPIManager) (origin_symbol target_symbol :
        String) (p : ℚ),
        get_ticker_price self (origin_symbol ++ target_symbol) = some p →
        0 < p → origin_symbol ≠ target_symbol →
        0 < get_currency_balance self target_symbol →
        (buy_alt self origin_symbol target_symbol).1 = some p ∧
        get_currency_balance (buy_alt self origin_symbol target_symbol).2
          target_symbol = 0 ∧
        get_currency_balance (buy_alt self origin_symbol target_symbol).2
          origin_symbol =
          get_currency_balance self origin_symbol +
            (get_currency_balance self target_symbol / p) *
              (1 - self.fee_rate)) ∧
    (∀ (self : SpotBacktestAPIManager) (origin_symbol target_symbol :
        String) (p : ℚ),
        get_ticker_price self (origin_symbol ++ target_symbol) = some p →
        0 < p → origin_symbol ≠ target_symbol →
        0 < get_currency_balance self origin_symbol →
        (sell_alt self origin_symbol target_symbol).1 = some p ∧
        get_currency_balance (sell_alt self origin_symbol target_symbol).2
          origin_symbol = 0 ∧
        get_currency_balance (sell_alt self origin_symbol target_symbol).2
          target_symbol =
          get_currency_balance self target_symbol +
            (get_currency_balance self origin_symbol * p) *
              (1 - self.fee_rate)) ∧
    (∀ (self : SpotBacktestAPIManager) (origin_symbol target_symbol :
        String),
        get_ticker_price self (origin_symbol ++ target_symbol) = none →
        buy_alt self origin_symbol target_symbol = (none, self) ∧
        sell_alt self origin_symbol target_symbol = (none, self)) ∧
    (∀ (self : SpotBacktestAPIManager) (origin_symbol target_symbol :
        String) (p : ℚ),
        get_ticker_price self (origin_symbol ++ target_symbol) = some p →
        (get_currency_balance self target_symbol ≤ 0 →
          buy_alt self origin_symbol target_symbol = (none, self)) ∧
        (get_currency_balance self origin_symbol ≤ 0 →
          sell_alt self origin_symbol target_symbol = (none, self))) := by
  refine ⟨?_, ?_, ?_, ?_⟩
  · intro self origin_symbol target_symbol p hp hppos hne hbal
    simp only [buy_alt, hp, if_neg (not_le.mpr hbal)]
    refine ⟨trivial, ?_, ?_⟩
    · unfold get_currency_balance
      simp only
      rw [alist_get_set_ne _ origin_symbol target_symbol _ (Ne.symm hne),
        alist_get_set_self]
      rfl
    · unfold get_currency_balance
      simp only
      rw [alist_get_set_self, alist_get_set_ne _ target_symbol origin_symbol
        _ hne]
      rfl
  · intro self origin_symbol target_symbol p hp hppos hne hbal
    simp only [sell_alt, hp, if_neg (not_le.mpr hbal)]
    refine ⟨trivial, ?_, ?_⟩
    · unfold get_currency_balance
      simp only
      rw [alist_get_set_ne _ target_symbol origin_symbol _ hne,
        alist_get_set_self]
      rfl
    · unfold get_currency_balance
      simp only
      rw [alist_get_set_self, alist_get_set_ne _ origin_symbol target_symbol
        _ (Ne.symm hne)]
      rfl
  · intro self origin_symbol target_symbol hp
    constructor
    · simp only [buy_alt, hp]
    · simp only [sell_alt, hp]
  · intro self origin_symbol target_symbol p hp
    constructor
    · intro hble
      simp only [buy_alt, hp, if_pos hble]
    · intro hble
      simp only [sell_alt, hp, if_pos hble]

/-- C9 witness: with 1000 USDT and ticker price 100, `buy_alt` leaves
the USDT balance at exactly 0. -/
theorem c9_spot_full_balance_swap_witness :
    get_currency_balance (buy_alt spot_mgr "BNB" "USDT").2 "USDT" = 0 :=
  (c9_spot_full_balance_swap.1 spot_mgr "BNB" "USDT" 100 rfl (by norm_num)
    (by decide)
    (by norm_num [show get_currency_balance spot_mgr "USDT" = 1000
      from rfl])).2.1

/-- C2 (amended): the replay loop appends exactly one equity point per
successful tick and none for a failed tick (the `continue` skips the
recording step), so a completed run has equity-curve length equal to the
number of successful ticks (ticks minus failures); each appended point
carries equity equal to the balance plus the sum of unrealized PnL over
the open positions whose mark price is obtainable and nonzero. -/
theorem c2_equity_per_successful_tick :
    (∀ (scout : BacktestAPIManager → Bool × BacktestAPIManager)
        (max_errors : ℕ) (ts : List Int) (i error_count : ℕ)
        (api : BacktestAPIManager) (curve : List EquityPoint)
        (r : RunResult),
        run_loop scout max_errors ts i error_count api curve = .ok r →
        r.equity_curve.length + r.error_count =
          curve.length + error_count + ts.length) ∧
    (∀ (self : BacktestAPIManager),
        total_equity self = self.balance + sum_marked_pnl self) ∧
    (∀ (scout : BacktestAPIManager → Bool × BacktestAPIManager)
        (max_errors : ℕ) (t : Int) (rest : List Int) (i error_count : ℕ)
        (api api1 : BacktestAPIManager) (curve : List EquityPoint),
        scout { api with current_time := some t } = (true, api1) →
        run_loop scout max_errors (t :: rest) i error_count api curve =
          run_loop scout max_errors rest (i + 1) error_count api1
            (curve ++ [({ timestamp := t, equity := total_equity api1,
                          balance := api1.balance,
                          positions := api1.positions.length } :
                         EquityPoint)])) ∧
    (∀ (scout : BacktestAPIManager → Bool × BacktestAPIManager)
        (max_errors : ℕ) (t : Int) (rest : List Int) (i error_count : ℕ)
        (api api1 : BacktestAPIManager) (curve : List EquityPoint),
        scout { api with current_time := some t } = (false, api1) →
        error_count + 1 ≤ max_errors →
        run_loop scout max_errors (t :: rest) i error_count api curve =
          run_loop scout max_errors rest (i + 1) (error_count + 1) api1
            curve) := by
  refine ⟨?_, total_equity_eq, ?_, ?_⟩
  · intro scout max_errors ts i ec api curve r h
    exact run_loop_ok_curve_length scout max_errors ts i ec api curve r h
  · intro scout max_errors t rest i ec api api1 curve hs
    rw [run_loop, hs]
  · intro scout max_errors t rest i ec api api1 curve hs hle
    rw [run_loop, hs]
    simp only [if_neg (not_lt.mpr hle)]

/-- C2 witness: a one-tick run with a successful, non-trading callback
records exactly one equity point. -/
theorem c2_equity_per_successful_tick_witness :
    one_ok_result.equity_curve.length + one_ok_result.error_count =
      ([] : List EquityPoint).length + 0 + [(0 : Int)].length :=
  c2_equity_per_successful_tick.1 scout_ok 10 [(0 : Int)] 0 0 mgr_plain []
    one_ok_result rfl

/-- C2 counterexample: a one-tick run whose strategy callback raises
completes with an empty equity curve, although one tick was executed — a
failed tick appends no `EquityPoint`, refuting the claim that exactly one
point is appended whether the callback succeeds or raises. -/
theorem c2_failed_tick_skips_equity_counterexample :
    run_loop scout_fail 10 [(0 : Int)] 0 0 mgr_plain [] =
      .ok one_fail_result ∧
    one_fail_result.equity_curve.length = 0 ∧ [(0 : Int)].length = 1 :=
  ⟨rfl, rfl, rfl⟩

/-- C3 (amended): the failure ceiling of both replay loops is the fixed
value `max(10, total_ticks / 10)` computed once from the whole timestamp
sequence (not from the ticks processed so far): a run aborts exactly when
the cumulative failure count first exceeds it, the abort carries the
failure count (ceiling + 1) and the tick count from which the Python
message derives the ratio, a completed run never exceeded it, and in
Scenario C (100 ticks, failures on the first 15) the futures loop aborts
at the 11th failure. -/
theorem c3_failure_ceiling_amended :
    (∀ (scout : BacktestAPIManager → Bool × BacktestAPIManager)
        (max_errors : ℕ) (ts : List Int) (i error_count : ℕ)
        (api : BacktestAPIManager) (curve : List EquityPoint)
        (info : AbortInfo),
        error_count ≤ max_errors → error_count ≤ i →
        run_loop scout max_errors ts i error_count api curve =
          .error info →
        info.error_count = max_errors + 1 ∧
          info.error_count ≤ info.ticks_processed) ∧
    (∀ (scout : BacktestAPIManager → Bool × BacktestAPIManager)
        (max_errors : ℕ) (ts : List Int) (i error_count : ℕ)
        (api : BacktestAPIManager) (curve : List EquityPoint)
        (r : RunResult),
        error_count ≤ max_errors →
        run_loop scout max_errors ts i error_count api curve = .ok r →
        r.error_count ≤ max_errors) ∧
    (∀ (scout : BacktestAPIManager → Bool × BacktestAPIManager)
        (api : BacktestAPIManager) (start_ms end_ms : Int)
        (interval : String) (info : AbortInfo),
        engine_run scout api start_ms end_ms interval =
          .error (.aborted info) →
        info.error_count =
          max 10 ((generate_timestamps start_ms end_ms
            (engine_interval_to_ms interval)).length / 10) + 1) ∧
    run_loop scout_fail15 (max 10 (ticks_100.length / 10)) ticks_100 0 0
      mgr_plain [] = .error { error_count := 11, ticks_processed := 11 } ∧
    (∀ (scout : SpotBacktestAPIManager → Bool × SpotBacktestAPIManager)
        (max_errors : ℕ) (ts : List Int) (i error_count : ℕ)
        (api : SpotBacktestAPIManager) (history : List SpotPoint)
        (info : AbortInfo),
        error_count ≤ max_errors → error_count ≤ i →
        spot_run_loop scout max_errors ts i error_count api history =
          .error info →
        info.error_count = max_errors + 1 ∧
          info.error_count ≤ info.ticks_processed) ∧
    (∀ (scout : SpotBacktestAPIManager → Bool × SpotBacktestAPIManager)
        (max_errors : ℕ) (ts : List Int) (i error_count : ℕ)
        (api : SpotBacktestAPIManager) (history : List SpotPoint)
        (r : SpotRunResult),
        error_count ≤ max_errors →
        spot_run_loop scout max_errors ts i error_count api history =
          .ok r →
        r.error_count ≤ max_errors) := by
  refine ⟨?_, ?_, ?_, by rfl, ?_, ?_⟩
  · intro scout m ts i ec api curve info h1 h2 h
    exact run_loop_error_ceiling scout m ts i ec api curve info h1 h2 h
  · intro scout m ts i ec api curve r h1 h
    exact run_loop_ok_error_le scout m ts i ec api curve r h1 h
  · intro scout api start_ms end_ms interval info h
    by_cases hlen : (generate_timestamps start_ms end_ms
        (engine_interval_to_ms interval)).length = 0
    · simp only [engine_run] at h
      rw [if_pos hlen] at h
      injection h with h2
      cases h2
    · simp only [engine_run] at h
      rw [if_neg hlen] at h
      cases hrun : run_loop scout
          (max 10 ((generate_timestamps start_ms end_ms
            (engine_interval_to_ms interval)).length / 10))
          (generate_timestamps start_ms end_ms
            (engine_interval_to_ms interval)) 0 0
          { api with current_time := some ((generate_timestamps start_ms
            end_ms (engine_interval_to_ms interval)).headD 0) } [] with
      | ok r =>
        rw [hrun] at h
        cases h
      | error info2 =>
        rw [hrun] at h
        injection h with h2
        injection h2 with h3
        cases h3
        exact (run_loop_error_ceiling _ _ _ _ _ _ _ _ (Nat.zero_le _)
          (Nat.zero_le _) hrun).1
  · intro scout m ts i ec api history info h1 h2 h
    exact spot_run_loop_error_ceiling scout m ts i ec api history info h1
      h2 h
  · intro scout m ts i ec api history r h1 h
    exact spot_run_loop_ok_error_le scout m ts i ec api history r h1 h

/-- C3 witness: a one-tick run with a failing callback stays below the
ceiling 10 and completes. -/
theorem c3_failure_ceiling_amended_witness :
    one_fail_result.error_count ≤ 10 :=
  c3_failure_ceiling_amended.2.1 scout_fail 10 [(0 : Int)] 0 0 mgr_plain []
    one_fail_result (Nat.zero_le 10) rfl

/-- C3 counterexample: over 150 ticks whose first 15 all fail, the
cumulative failure count reaches 15 while only 15 ticks have been
processed — far above the claimed running ceiling
`max(10, 15 / 10) = 10` — yet the run completes without aborting,
because the code compares against the fixed ceiling
`max(10, 150 / 10) = 15` computed from the total tick count. -/
theorem c3_running_ceiling_counterexample :
    (run_loop scout_fail15 (max 10 (ticks_150.length / 10)) ticks_150 0 0
      mgr_plain []).isOk = true ∧
    run_error_count (run_loop scout_fail15 (max 10 (ticks_150.length / 10))
      ticks_150 0 0 mgr_plain []) = 15 ∧
    ¬ (15 ≤ max 10 (15 / 10)) :=
  ⟨rfl, rfl, by decide⟩
